import Mathlib

/-!
Verification of `gbm_simulator.py` (boomelage/boomelage).

The program simulates an ensemble of geometric-Brownian-motion price paths
(`generate_gbm`), renders one frame per time step with globally fixed axis
bounds (`plot_gbm`), and the main script computes the global scale state
(min/max cumulative log-return and a histogram density bound) before
dispatching the per-frame renders.

The embedding below translates the numeric layer of the source into Lean:
numpy arrays become `Fin`-indexed functions over `ℝ`, `np.exp` / `np.log` /
`np.sqrt` become `Real.exp` / `Real.log` / `Real.sqrt`, and the file-name
formatting `f'gbm_\x7bt:03d\x7d.png'` becomes an explicit decimal formatter over
lists of characters.  Fallible evaluation (Python exceptions) is modelled
with `Except`.
-/

noncomputable section

/-- Line 11 of `generate_gbm`: `dt = 1.0 / T`. -/
def dt (T : ℕ) : ℝ := 1 / (T : ℝ)

/-- Line 13: `daily_returns = np.exp((mu - r * sigma ** 2) * dt + sigma * np.sqrt(dt) * Z)`,
a `(T, N)` matrix of per-step multiplicative factors, for a given noise matrix `Z`. -/
def daily_returns (T N : ℕ) (mu sigma r : ℝ) (Z : Fin T → Fin N → ℝ) :
    Fin T → Fin N → ℝ :=
  fun s p => Real.exp ((mu - r * sigma ^ 2) * dt T + sigma * Real.sqrt (dt T) * Z s p)

/-- Lines 10-15, `generate_gbm(N, T, mu, sigma, S0, r)` with the random draw `Z`
made an explicit argument:
`paths = np.vstack([np.ones(N) * S0, S0 * daily_returns.cumprod(axis=0)])`.
Row `0` is `np.ones(N) * S0`; row `s+1` is `S0` times the inclusive cumulative
product (over steps `0..s`) of `daily_returns`.  The result has `T + 1` rows
and `N` columns by its type, which embeds the numpy shape `(T+1, N)`. -/
def generate_gbm (N T : ℕ) (mu sigma S0 r : ℝ) (Z : Fin T → Fin N → ℝ) :
    Fin (T + 1) → Fin N → ℝ :=
  Fin.cons (fun _ => 1 * S0)
    (fun s p => S0 * ∏ i ∈ Finset.Iic s, daily_returns T N mu sigma r Z i p)

/-- The two kinds of exceptions the numeric layer of the script can raise:
`ZeroDivisionError` (float division by zero) and numpy's `ValueError`. -/
inductive PyError where
  | zeroDivision : PyError
  | valueError : PyError

/-- The failure behaviour of a call `generate_gbm(N, T, ...)` when the integer
arguments are allowed to be arbitrary (values on success are given by
`generate_gbm` above; here only the control flow is modelled, in source order):
line 11 `dt = 1.0 / T` raises `ZeroDivisionError` iff `T = 0`; line 12
`np.random.standard_normal((T, N))` raises `ValueError` (negative dimensions
are not allowed) iff `T < 0` or `N < 0`; otherwise the function returns
normally (in particular `N = 0` returns an empty `(T+1, 0)` matrix). -/
def generate_gbm_run (N T : ℤ) : Except PyError Unit :=
  if T = 0 then Except.error PyError.zeroDivision
  else if T < 0 ∨ N < 0 then Except.error PyError.valueError
  else Except.ok ()

/-- The numpy reduction `a.max()` for a `(T, N)` array: the supremum of the (finite) set of
entries. -/
def matrixMax (T N : ℕ) (f : Fin T → Fin N → ℝ) : ℝ :=
  sSup (Set.range fun q : Fin T × Fin N => f q.1 q.2)

/-- The numpy reduction `a.min()` for a `(T, N)` array. -/
def matrixMin (T N : ℕ) (f : Fin T → Fin N → ℝ) : ℝ :=
  sInf (Set.range fun q : Fin T × Fin N => f q.1 q.2)

/-- Line 83: `log_returns = np.log(paths[1:, :] / S0)` — row `s` of this
`(T, N)` matrix is the cumulative log-return of row `s+1` of `paths`
relative to the initial price `S0`. -/
def log_returns (T N : ℕ) (paths : Fin (T + 1) → Fin N → ℝ) (S0 : ℝ) :
    Fin T → Fin N → ℝ :=
  fun s p => Real.log (paths s.succ p / S0)

/-- Line 86: `min_log_return = log_returns.min()`. -/
def min_log_return (T N : ℕ) (paths : Fin (T + 1) → Fin N → ℝ) (S0 : ℝ) : ℝ :=
  matrixMin T N (log_returns T N paths S0)

/-- Line 87: `max_log_return = log_returns.max()`. -/
def max_log_return (T N : ℕ) (paths : Fin (T + 1) → Fin N → ℝ) (S0 : ℝ) : ℝ :=
  matrixMax T N (log_returns T N paths S0)

/-- Line 32: `total_log_returns = np.log(paths[t, :] / paths[0, :])`, the
per-frame cumulative log-return vector computed inside `plot_gbm`. -/
def total_log_returns (T N : ℕ) (paths : Fin (T + 1) → Fin N → ℝ)
    (t : Fin (T + 1)) (p : Fin N) : ℝ :=
  Real.log (paths t p / paths 0 p)

/-- The character of a decimal digit, `chr(48 + d)`. -/
def digitChar (d : ℕ) : Char := Char.ofNat (48 + d)

/-- Fuel-indexed decimal formatter (most significant digit first). -/
def natReprAux : ℕ → ℕ → List Char
  | 0, _ => []
  | fuel + 1, n =>
    if n < 10 then [digitChar n]
    else natReprAux fuel (n / 10) ++ [digitChar (n % 10)]

/-- The decimal representation of `n`, as Python's `str(n)`. -/
def natRepr (n : ℕ) : List Char := natReprAux (n + 1) n

/-- Python's format spec `03d`: the decimal representation left-padded with
`'0'` to a minimum width of 3 (wider numbers are not truncated). -/
def format03d (n : ℕ) : List Char :=
  List.replicate (3 - (natRepr n).length) (digitChar 0) ++ natRepr n

/-- Line 62: the frame artifact name `f'gbm_\x7bt:03d\x7d.png'`, as a list of
characters. -/
def frameName (t : ℕ) : List Char :=
  ['g', 'b', 'm', '_'] ++ format03d t ++ ['.', 'p', 'n', 'g']

/-- Strict lexicographic order on character lists by code point — the order in
which the frame files sort. -/
def lexLtB : List Char → List Char → Bool
  | [], [] => false
  | [], _ :: _ => true
  | _ :: _, [] => false
  | a :: as, b :: bs =>
    if a.toNat < b.toNat then true
    else if b.toNat < a.toNat then false
    else lexLtB as bs

/-- The data layer of one rendered frame: the per-path price rows actually
plotted (`paths[:t + 1, :]`, line 23), the fixed axis windows (lines 27-28 and
38-40), the optional right-panel histogram input (values and bin count,
lines 31-33), and the output artifact name (line 62). -/
structure FrameData (N : ℕ) where
  plotted : List (Fin N → ℝ)
  xlim : ℝ × ℝ
  ylim : ℝ × ℝ
  hist : Option ((Fin N → ℝ) × ℕ)
  ax2_ylim : ℝ × ℝ
  ax2_xlim : ℝ × ℝ
  fname : List Char

/-- Lines 17-63, `plot_gbm(paths, t, output_dir, T, min_log_return,
max_log_return, max_density)`, restricted to its data layer:
`ax1.plot(paths[:t + 1, :])`; `ax1.set_xlim(0, T)`;
`ax1.set_ylim(0, paths.max())`; for `t > 0` a histogram of
`np.log(paths[t, :] / paths[0, :])` with `int(np.sqrt(N))` bins (the vector
has `N` entries); `ax2.set_ylim(-m, m)` with
`m = max(abs(min_log_return), abs(max_log_return))`;
`ax2.set_xlim(0, max_density * 1.1)`; output file `f'gbm_\x7bt:03d\x7d.png'`. -/
def plot_gbm (T N : ℕ) (paths : Fin (T + 1) → Fin N → ℝ) (t : Fin (T + 1))
    (min_log_return max_log_return max_density : ℝ) : FrameData N where
  plotted := ((List.finRange (T + 1)).take ((t : ℕ) + 1)).map paths
  xlim := (0, (T : ℝ))
  ylim := (0, matrixMax (T + 1) N paths)
  hist :=
    if 0 < (t : ℕ) then some (fun p => total_log_returns T N paths t p, Nat.sqrt N)
    else none
  ax2_ylim := (-(max |min_log_return| |max_log_return|),
    max |min_log_return| |max_log_return|)
  ax2_xlim := (0, max_density * 1.1)
  fname := frameName (t : ℕ)

/-- The numpy call `log_returns.flatten()`: the row-major (C-order) flattening of a `(T, N)`
matrix into a list. -/
def matrixToList (T N : ℕ) (f : Fin T → Fin N → ℝ) : List ℝ :=
  (List.finRange T).flatMap fun s => (List.finRange N).map fun p => f s p

/-- Line 88: the bin count `int(np.sqrt(log_returns.size))` of the global
histogram; the `(T, N)` log-return matrix has `T * N` elements. -/
def main_hist_bins (T N : ℕ) : ℕ := Nat.sqrt (T * N)

/-- The reduction `a.min()` for a list of samples (the empty case never occurs on the paths
on which it is used; numpy would raise there). -/
def listMin : List ℝ → ℝ
  | [] => 0
  | x :: xs => xs.foldl min x

/-- The reduction `a.max()` for a list of samples. -/
def listMax : List ℝ → ℝ
  | [] => 0
  | x :: xs => xs.foldl max x

/-- Lower outer histogram edge per numpy: `a.min()`, moved down by `0.5`
when minimum and maximum coincide (numpy's degenerate-range rule). -/
def histLo (data : List ℝ) : ℝ :=
  if listMin data = listMax data then listMin data - 0.5 else listMin data

/-- Upper outer edge of the numpy histogram range. -/
def histHi (data : List ℝ) : ℝ :=
  if listMin data = listMax data then listMax data + 0.5 else listMax data

/-- The uniform bin width `(last_edge - first_edge) / bins`. -/
def histWidth (data : List ℝ) (bins : ℕ) : ℝ :=
  (histHi data - histLo data) / (bins : ℝ)

/-- The number of samples falling in bin `j`: numpy assigns `x` to bin `j` when
`edge_j ≤ x < edge_(j+1)`, and the last bin also includes its right edge. -/
def binCount (data : List ℝ) (lo width hi : ℝ) (bins j : ℕ) : ℕ :=
  data.countP fun x =>
    decide (lo + (j : ℝ) * width ≤ x) &&
      (decide (x < lo + ((j : ℝ) + 1) * width) ||
        (j + 1 == bins && decide (x ≤ hi)))

/-- The per-bin sample counts of the numpy histogram. -/
def histCounts (data : List ℝ) (bins : ℕ) : List ℕ :=
  (List.range bins).map fun j =>
    binCount data (histLo data) (histWidth data bins) (histHi data) bins j

/-- The reduction `n.sum()`: the total number of binned samples. -/
def histTotal (data : List ℝ) (bins : ℕ) : ℕ := (histCounts data bins).sum

/-- The call `np.histogram(data, bins=bins, density=True)` (lines 33 and 88): empty data
or a zero bin count raise `ValueError`; the density normalisation divides each
count by `n.sum() * bin_width`, and a zero denominator is modelled as an
explicit division error; otherwise the list of per-bin densities is
returned. -/
def np_histogram_density (data : List ℝ) (bins : ℕ) : Except PyError (List ℝ) :=
  if data = [] ∨ bins = 0 then Except.error PyError.valueError
  else if histWidth data bins = 0 ∨ histTotal data bins = 0 then
    Except.error PyError.zeroDivision
  else
    Except.ok ((histCounts data bins).map fun c =>
      (c : ℝ) / ((histTotal data bins : ℝ) * histWidth data bins))

/-- A concrete all-zero noise draw used to instantiate universally quantified
theorems on concrete inputs. -/
def wZ : Fin 1 → Fin 1 → ℝ := fun _ _ => 0

/-- The concrete path matrix generated from one path, one step, zero drift and
volatility, unit initial price, zero rate, and the noise `wZ`. -/
def wPaths : Fin 2 → Fin 1 → ℝ := generate_gbm 1 1 0 0 1 0 wZ

/-! ## Theorems -/

theorem le_matrixMax (T N : ℕ) (f : Fin T → Fin N → ℝ) (i : Fin T) (j : Fin N) :
    f i j ≤ matrixMax T N f :=
  le_csSup ((Set.finite_range _).bddAbove) ⟨(i, j), rfl⟩

theorem matrixMin_le (T N : ℕ) (f : Fin T → Fin N → ℝ) (i : Fin T) (j : Fin N) :
    matrixMin T N f ≤ f i j :=
  csInf_le ((Set.finite_range _).bddBelow) ⟨(i, j), rfl⟩

/-- C1: for every horizon `T > 0`, path count `N > 0`, drift, volatility,
initial price `S0 > 0`, rate and noise matrix `Z`, the path generator uses
`dt = 1/T`, sets row 0 of the output to `S0` in every column, and sets row
`s+1` (covering every row index `1 ≤ t ≤ T`) of path `p` to `S0` times the
cumulative product over steps `0..s` of the per-step factors
`exp((mu - r·sigma²)·dt + sigma·sqrt(dt)·Z[i,p])`. -/
theorem generate_gbm_formula (N T : ℕ) (mu sigma S0 r : ℝ)
    (Z : Fin T → Fin N → ℝ) (hT : 0 < T) (hN : 0 < N) (hS0 : 0 < S0) :
    dt T = 1 / (T : ℝ) ∧
    (∀ p : Fin N, generate_gbm N T mu sigma S0 r Z 0 p = S0) ∧
    (∀ (s : Fin T) (p : Fin N),
      generate_gbm N T mu sigma S0 r Z s.succ p =
        S0 * ∏ i ∈ Finset.Iic s,
          Real.exp ((mu - r * sigma ^ 2) * dt T + sigma * Real.sqrt (dt T) * Z i p)) := by
  refine ⟨rfl, fun p => ?_, fun s p => ?_⟩
  · simp [generate_gbm]
  · simp [generate_gbm, daily_returns]

theorem generate_gbm_formula_witness :
    (0 : ℕ) < 1 ∧ (0 : ℝ) < 1 ∧
    (dt 1 = 1 / ((1 : ℕ) : ℝ) ∧
      (∀ p : Fin 1, generate_gbm 1 1 0 0 1 0 wZ 0 p = 1) ∧
      (∀ (s : Fin 1) (p : Fin 1),
        generate_gbm 1 1 0 0 1 0 wZ s.succ p =
          1 * ∏ i ∈ Finset.Iic s,
            Real.exp ((0 - 0 * (0 : ℝ) ^ 2) * dt 1 + 0 * Real.sqrt (dt 1) * wZ i p))) :=
  ⟨Nat.one_pos, one_pos, generate_gbm_formula 1 1 0 0 1 0 wZ Nat.one_pos Nat.one_pos one_pos⟩

/-- C2: for all valid simulation parameters (`N > 0`, `T > 0`, `S0 > 0`) and
any noise matrix, the generated matrix — of shape `(T+1, N)` by the return
type of `generate_gbm` — has row 0 equal to `S0` in every column, and every
entry strictly positive. -/
theorem generate_gbm_shape_pos (N T : ℕ) (mu sigma S0 r : ℝ)
    (Z : Fin T → Fin N → ℝ) (hN : 0 < N) (hT : 0 < T) (hS0 : 0 < S0) :
    (∀ p : Fin N, generate_gbm N T mu sigma S0 r Z 0 p = S0) ∧
    (∀ (t : Fin (T + 1)) (p : Fin N), 0 < generate_gbm N T mu sigma S0 r Z t p) := by
  constructor
  · intro p
    simp [generate_gbm]
  · intro t p
    refine Fin.cases ?_ ?_ t
    · simpa [generate_gbm] using hS0
    · intro s
      simp only [generate_gbm, Fin.cons_succ]
      exact mul_pos hS0 (Finset.prod_pos fun i _ => Real.exp_pos _)

theorem generate_gbm_shape_pos_witness :
    (0 : ℕ) < 1 ∧ (0 : ℝ) < 1 ∧
    ((∀ p : Fin 1, generate_gbm 1 1 0 0 1 0 wZ 0 p = 1) ∧
      (∀ (t : Fin 2) (p : Fin 1), 0 < generate_gbm 1 1 0 0 1 0 wZ t p)) :=
  ⟨Nat.one_pos, one_pos, generate_gbm_shape_pos 1 1 0 0 1 0 wZ Nat.one_pos Nat.one_pos one_pos⟩

/-- C4 (counterexample): a call with `path_count = 0` (which is `≤ 0`) and a
valid horizon does not fail at all — `np.random.standard_normal((252, 0))` is
legal and `generate_gbm` returns an empty `(253, 0)` matrix — refuting the
claim that every call with `path_count ≤ 0` fails with an error. -/
theorem generate_gbm_run_zero_paths_ok :
    generate_gbm_run 0 252 = Except.ok () := by
  unfold generate_gbm_run
  norm_num

/-- C4 (amended): a call to the path generator raises an exception iff the
horizon is `≤ 0` or the path count is `< 0`; there is no dedicated
`InvalidParameter` error type — `horizon = 0` raises `ZeroDivisionError` at
`dt = 1.0 / T` and the other cases raise numpy's `ValueError`, both inside
`generate_gbm` itself and hence before any rendering. -/
theorem generate_gbm_run_error_iff (N T : ℤ) :
    (∃ e, generate_gbm_run N T = Except.error e) ↔ T ≤ 0 ∨ N < 0 := by
  unfold generate_gbm_run
  split_ifs with h1 h2
  · exact ⟨fun _ => Or.inl (by omega), fun _ => ⟨PyError.zeroDivision, rfl⟩⟩
  · refine ⟨fun _ => ?_, fun _ => ⟨PyError.valueError, rfl⟩⟩
    rcases h2 with h | h
    · exact Or.inl (by omega)
    · exact Or.inr h
  · constructor
    · rintro ⟨e, he⟩; cases he
    · intro h
      exfalso
      push_neg at h2
      rcases h with h | h
      · exact h1 (le_antisymm h h2.1)
      · exact absurd h (not_lt.2 h2.2)

/-- C5: at frame index `t = 0` the renderer's data layer is total (no division
and no out-of-range access is evaluated: the histogram branch is guarded by
`t > 0`), the left panel plots exactly the single starting row `paths[0]`
(one point / flat line per path), the right panel carries no histogram data,
and all four axis windows are still the fixed global bounds. -/
theorem plot_gbm_t_zero (T N : ℕ) (paths : Fin (T + 1) → Fin N → ℝ)
    (mn mx md : ℝ) :
    (plot_gbm T N paths 0 mn mx md).plotted = [paths 0] ∧
    (plot_gbm T N paths 0 mn mx md).hist = none ∧
    (plot_gbm T N paths 0 mn mx md).xlim = (0, (T : ℝ)) ∧
    (plot_gbm T N paths 0 mn mx md).ylim = (0, matrixMax (T + 1) N paths) ∧
    (plot_gbm T N paths 0 mn mx md).ax2_ylim =
      (-(max |mn| |mx|), max |mn| |mx|) ∧
    (plot_gbm T N paths 0 mn mx md).ax2_xlim = (0, md * 1.1) := by
  refine ⟨?_, ?_, rfl, rfl, rfl, rfl⟩
  · simp [plot_gbm, List.finRange_succ_eq_map]
  · simp [plot_gbm]

/-- C8: for frame indices `t1 < t2` over the same path matrix and global scale
state, the rows plotted at `t1` are exactly the first `t1 + 1` entries of the
rows plotted at `t2` (prefix relation on the plotted data), and re-invoking
the renderer's data layer with identical inputs yields identical data (it is
a pure function of its inputs). -/
theorem plotted_data_monotone (T N : ℕ) (paths : Fin (T + 1) → Fin N → ℝ)
    (mn mx md : ℝ) (t1 t2 : Fin (T + 1)) (h : t1 < t2) :
    (plot_gbm T N paths t1 mn mx md).plotted =
      List.take ((t1 : ℕ) + 1) ((plot_gbm T N paths t2 mn mx md).plotted) ∧
    plot_gbm T N paths t1 mn mx md = plot_gbm T N paths t1 mn mx md := by
  refine ⟨?_, rfl⟩
  simp only [plot_gbm]
  rw [← List.map_take, List.take_take]
  have hle : (t1 : ℕ) + 1 ≤ (t2 : ℕ) + 1 := by
    have := Fin.lt_def.mp h
    omega
  rw [Nat.min_eq_left hle]

theorem plotted_data_monotone_witness :
    (0 : Fin 2) < 1 ∧
    ((plot_gbm 1 1 wPaths 0 0 0 0).plotted =
        List.take (((0 : Fin 2) : ℕ) + 1) ((plot_gbm 1 1 wPaths 1 0 0 0).plotted) ∧
      plot_gbm 1 1 wPaths 0 0 0 0 = plot_gbm 1 1 wPaths 0 0 0 0) :=
  ⟨by decide, plotted_data_monotone 1 1 wPaths 0 0 0 0 1 (by decide)⟩

/-- C10: for every time index of the form `t = s + 1 ≥ 1` on a matrix produced
by the path generator, the per-frame log-return vector
`log(paths[t, :] / paths[0, :])` of `plot_gbm` (line 32) equals row `s` of the
global log-return matrix `log(paths[1:, :] / S0)` of the main script
(line 83), because row 0 of the generated matrix is `S0` in every column: the
two differently written log-return computations agree. -/
theorem log_return_refinement (N T : ℕ) (mu sigma S0 r : ℝ)
    (Z : Fin T → Fin N → ℝ) (s : Fin T) (p : Fin N) :
    total_log_returns T N (generate_gbm N T mu sigma S0 r Z) s.succ p =
      log_returns T N (generate_gbm N T mu sigma S0 r Z) S0 s p := by
  simp [total_log_returns, log_returns, generate_gbm]

/-- C3: with the global scale state computed by the main script from the full
generated matrix (`mn`/`mx` the min/max cumulative log-return, `md` the
histogram density bound), the axis windows of the rendered frames are
identical for every frame index of one run; the price-axis upper bound equals
the maximum over the complete path matrix and dominates every plotted price;
the log-return axis is the symmetric interval `[-m, m]` with
`m = max |mn| |mx|`, and `m` dominates the magnitude of every per-frame
log-return; and the density axis is `[0, 1.1 * md]`. -/
theorem global_scale_invariant (N T : ℕ) (mu sigma S0 r md : ℝ)
    (Z : Fin T → Fin N → ℝ) (paths : Fin (T + 1) → Fin N → ℝ) (mn mx : ℝ)
    (hp : paths = generate_gbm N T mu sigma S0 r Z)
    (hmn : mn = min_log_return T N paths S0)
    (hmx : mx = max_log_return T N paths S0) :
    (∀ t u : Fin (T + 1),
      (plot_gbm T N paths t mn mx md).xlim = (plot_gbm T N paths u mn mx md).xlim ∧
      (plot_gbm T N paths t mn mx md).ylim = (plot_gbm T N paths u mn mx md).ylim ∧
      (plot_gbm T N paths t mn mx md).ax2_ylim =
        (plot_gbm T N paths u mn mx md).ax2_ylim ∧
      (plot_gbm T N paths t mn mx md).ax2_xlim =
        (plot_gbm T N paths u mn mx md).ax2_xlim) ∧
    (∀ t : Fin (T + 1),
      (plot_gbm T N paths t mn mx md).ylim.2 = matrixMax (T + 1) N paths) ∧
    (∀ (t i : Fin (T + 1)) (p : Fin N), (i : ℕ) ≤ (t : ℕ) →
      paths i p ≤ (plot_gbm T N paths t mn mx md).ylim.2) ∧
    (∀ (s : Fin T) (p : Fin N),
      |total_log_returns T N paths s.succ p| ≤ max |mn| |mx|) ∧
    (∀ t : Fin (T + 1),
      (plot_gbm T N paths t mn mx md).ax2_ylim =
        (-(max |mn| |mx|), max |mn| |mx|)) ∧
    (∀ t : Fin (T + 1),
      (plot_gbm T N paths t mn mx md).ax2_xlim = (0, 1.1 * md)) := by
  refine ⟨fun t u => ⟨rfl, rfl, rfl, rfl⟩, fun t => rfl, ?_, ?_, fun t => rfl, ?_⟩
  · intro t i p _
    exact le_matrixMax (T + 1) N paths i p
  · intro s p
    have hv : total_log_returns T N paths s.succ p = log_returns T N paths S0 s p := by
      rw [hp]
      simp [total_log_returns, log_returns, generate_gbm]
    rw [hv]
    have h1 : mn ≤ log_returns T N paths S0 s p := by
      rw [hmn]
      exact matrixMin_le T N _ s p
    have h2 : log_returns T N paths S0 s p ≤ mx := by
      rw [hmx]
      exact le_matrixMax T N _ s p
    rcases le_total 0 (log_returns T N paths S0 s p) with hpos | hneg
    · rw [abs_of_nonneg hpos]
      exact le_trans h2 (le_trans (le_abs_self mx) (le_max_right _ _))
    · rw [abs_of_nonpos hneg]
      exact le_trans (neg_le_neg h1) (le_trans (neg_le_abs mn) (le_max_left _ _))
  · intro t
    show (0, md * 1.1) = (0, 1.1 * md)
    rw [mul_comm]

theorem global_scale_invariant_witness :
    |total_log_returns 1 1 wPaths (Fin.succ 0) 0| ≤
      max |min_log_return 1 1 wPaths 1| |max_log_return 1 1 wPaths 1| :=
  (global_scale_invariant 1 1 0 0 1 0 0 wZ wPaths
    (min_log_return 1 1 wPaths 1) (max_log_return 1 1 wPaths 1)
    rfl rfl rfl).2.2.2.1 0 0

theorem natReprAux_eq : ∀ n fuel : ℕ, n < fuel → natReprAux fuel n = natRepr n := by
  intro n
  induction n using Nat.strong_induction_on with
  | _ n ih =>
    intro fuel hf
    obtain ⟨f, rfl⟩ : ∃ f, fuel = f + 1 := ⟨fuel - 1, by omega⟩
    by_cases h : n < 10
    · simp [natReprAux, natRepr, h]
    · push_neg at h
      have hd : n / 10 < n := Nat.div_lt_self (by omega) (by omega)
      have e1 : natReprAux (f + 1) n = natReprAux f (n / 10) ++ [digitChar (n % 10)] := by
        simp [natReprAux, Nat.not_lt.mpr h]
      have e2 : natRepr n = natReprAux n (n / 10) ++ [digitChar (n % 10)] := by
        simp [natRepr, natReprAux, Nat.not_lt.mpr h]
      rw [e1, e2, ih (n / 10) hd f (by omega), ih (n / 10) hd n (by omega)]

theorem natRepr_lt10 {n : ℕ} (h : n < 10) : natRepr n = [digitChar n] := by
  simp [natRepr, natReprAux, h]

theorem natRepr_ge10 {n : ℕ} (h : 10 ≤ n) :
    natRepr n = natRepr (n / 10) ++ [digitChar (n % 10)] := by
  have e2 : natRepr n = natReprAux n (n / 10) ++ [digitChar (n % 10)] := by
    simp [natRepr, natReprAux, Nat.not_lt.mpr h]
  rw [e2, natReprAux_eq (n / 10) n (Nat.div_lt_self (by omega) (by omega))]

theorem format03d_le999 {n : ℕ} (h : n ≤ 999) :
    format03d n = [digitChar (n / 100), digitChar (n / 10 % 10), digitChar (n % 10)] := by
  by_cases h1 : n < 10
  · rw [format03d, natRepr_lt10 h1]
    have d1 : n / 100 = 0 := by omega
    have d2 : n / 10 % 10 = 0 := by omega
    have d3 : n % 10 = n := by omega
    rw [d1, d2, d3]
    rfl
  · by_cases h2 : n < 100
    · rw [format03d, natRepr_ge10 (Nat.not_lt.mp h1),
        natRepr_lt10 (show n / 10 < 10 by omega)]
      have d1 : n / 100 = 0 := by omega
      have d2 : n / 10 % 10 = n / 10 := by omega
      rw [d1, d2]
      rfl
    · rw [format03d, natRepr_ge10 (show 10 ≤ n by omega),
        natRepr_ge10 (show 10 ≤ n / 10 by omega),
        natRepr_lt10 (show n / 10 / 10 < 10 by omega)]
      have d1 : n / 10 / 10 = n / 100 := by omega
      rw [d1]
      rfl

theorem digitChar_toNat : ∀ d : ℕ, d < 10 → (digitChar d).toNat = 48 + d := by decide

theorem lexLtB_cons_self (a : Char) (as bs : List Char) :
    lexLtB (a :: as) (a :: bs) = lexLtB as bs := by
  simp [lexLtB]

theorem lexLtB_digit_lt {d1 d2 : ℕ} (h1 : d1 < 10) (h2 : d2 < 10) (h : d1 < d2)
    (as bs : List Char) : lexLtB (digitChar d1 :: as) (digitChar d2 :: bs) = true := by
  have e1 := digitChar_toNat d1 h1
  have e2 := digitChar_toNat d2 h2
  simp only [lexLtB, e1, e2]
  rw [if_pos (by omega)]

/-- C6 (amended): the renderer writes exactly one artifact per frame index,
named `gbm_` + the zero-padded decimal index + `.png`; because the pad width
is fixed at 3 digits, lexical order of the names agrees with numeric order
for all frame indices `t1 < t2 ≤ 999` — which covers every run whose horizon
is at most 999, in particular the shipped configuration `T = 252`.  (For
horizons of 1000 or more the property fails; see the counterexample.) -/
theorem frameName_lex_order (t1 t2 : ℕ) (h12 : t1 < t2) (h2 : t2 ≤ 999) :
    lexLtB (frameName t1) (frameName t2) = true := by
  have h1 : t1 ≤ 999 := by omega
  rw [frameName, frameName, format03d_le999 h1, format03d_le999 h2]
  simp only [List.cons_append, List.nil_append]
  rw [lexLtB_cons_self, lexLtB_cons_self, lexLtB_cons_self, lexLtB_cons_self]
  rcases Nat.lt_trichotomy (t1 / 100) (t2 / 100) with hc | hc | hc
  · exact lexLtB_digit_lt (by omega) (by omega) hc _ _
  · rw [hc, lexLtB_cons_self]
    rcases Nat.lt_trichotomy (t1 / 10 % 10) (t2 / 10 % 10) with hb | hb | hb
    · exact lexLtB_digit_lt (by omega) (by omega) hb _ _
    · rw [hb, lexLtB_cons_self]
      exact lexLtB_digit_lt (by omega) (by omega) (by omega) _ _
    · exfalso; omega
  · exfalso; omega

theorem frameName_lex_order_witness :
    (0 : ℕ) < 1 ∧ (1 : ℕ) ≤ 999 ∧ lexLtB (frameName 0) (frameName 1) = true :=
  ⟨Nat.one_pos, by omega, frameName_lex_order 0 1 Nat.one_pos (by omega)⟩

/-- C6 (counterexample): for the frame indices `t1 = 999 < t2 = 1000` (both in
range for any horizon of at least 1000), the name `gbm_1000.png` does NOT sort
lexically after `gbm_999.png` — the `03d` padding is exhausted at four digits,
so lexical order diverges from numeric order. -/
theorem frameName_break_at_1000 :
    999 < 1000 ∧ lexLtB (frameName 999) (frameName 1000) = false := by
  decide

theorem flatMap_const_replicate {α β : Type} (l : List α) (n : ℕ) (c : β) :
    (l.flatMap fun _ => List.replicate n c) = List.replicate (l.length * n) c := by
  induction l with
  | nil => simp
  | cons a l ih =>
    simp only [List.flatMap_cons, ih, List.length_cons]
    rw [show (l.length + 1) * n = n + l.length * n by ring, List.replicate_add]

theorem matrixToList_const (T N : ℕ) (c : ℝ) :
    matrixToList T N (fun _ _ => c) = List.replicate (T * N) c := by
  unfold matrixToList
  rw [show (fun s : Fin T => (List.finRange N).map fun _ : Fin N => c) =
      (fun _ : Fin T => List.replicate N c) from
    funext fun s => by rw [List.map_const', List.length_finRange]]
  rw [flatMap_const_replicate, List.length_finRange]

theorem length_matrixToList (T N : ℕ) (f : Fin T → Fin N → ℝ) :
    (matrixToList T N f).length = T * N := by
  unfold matrixToList
  rw [List.length_flatMap]
  simp only [Function.comp_def, List.length_map, List.length_finRange]
  rw [List.map_const', List.length_finRange, List.sum_replicate, smul_eq_mul]

/-- C9: the global histogram of the main script uses bin count
`int(np.sqrt(log_returns.size))` — the floor square root of the element count
`T * N` of the flattened log-return matrix — and each per-frame histogram for
`t > 0` uses bin count `int(np.sqrt(N))`, the floor square root of the
per-frame sample size, which always equals the path count. -/
theorem histogram_bin_counts (T N : ℕ) (lr : Fin T → Fin N → ℝ)
    (paths : Fin (T + 1) → Fin N → ℝ) (t : Fin (T + 1)) (mn mx md : ℝ)
    (ht : 0 < (t : ℕ)) :
    main_hist_bins T N = Nat.sqrt ((matrixToList T N lr).length) ∧
    (plot_gbm T N paths t mn mx md).hist =
      some (fun p => total_log_returns T N paths t p, Nat.sqrt N) := by
  constructor
  · rw [length_matrixToList]
    rfl
  · simp [plot_gbm, ht]

theorem histogram_bin_counts_witness :
    0 < ((1 : Fin 2) : ℕ) ∧
    (main_hist_bins 1 1 = Nat.sqrt ((matrixToList 1 1 wZ).length) ∧
      (plot_gbm 1 1 wPaths 1 0 0 0).hist =
        some (fun p => total_log_returns 1 1 wPaths 1 p, Nat.sqrt 1)) :=
  ⟨by decide, histogram_bin_counts 1 1 wZ wPaths 1 0 0 0 (by decide)⟩

theorem listMin_replicate_six : listMin (List.replicate 6 (0 : ℝ)) = 0 := by
  simp [listMin, List.replicate_succ, List.replicate_zero, min_self]

theorem listMax_replicate_six : listMax (List.replicate 6 (0 : ℝ)) = 0 := by
  simp [listMax, List.replicate_succ, List.replicate_zero, max_self]

theorem histLo_replicate_six : histLo (List.replicate 6 (0 : ℝ)) = -0.5 := by
  rw [histLo, listMin_replicate_six, listMax_replicate_six, if_pos rfl]
  norm_num

theorem histHi_replicate_six : histHi (List.replicate 6 (0 : ℝ)) = 0.5 := by
  rw [histHi, listMin_replicate_six, listMax_replicate_six, if_pos rfl]
  norm_num

theorem histWidth_replicate_six : histWidth (List.replicate 6 (0 : ℝ)) 2 = 1 / 2 := by
  rw [histWidth, histLo_replicate_six, histHi_replicate_six]
  norm_num

theorem histTotal_replicate_six_pos : 0 < histTotal (List.replicate 6 (0 : ℝ)) 2 := by
  have hcount : 0 < binCount (List.replicate 6 (0 : ℝ))
      (histLo (List.replicate 6 (0 : ℝ))) (histWidth (List.replicate 6 (0 : ℝ)) 2)
      (histHi (List.replicate 6 (0 : ℝ))) 2 1 := by
    rw [binCount, List.countP_pos_iff]
    refine ⟨0, by simp, ?_⟩
    rw [histLo_replicate_six, histWidth_replicate_six, histHi_replicate_six]
    simp only [Bool.and_eq_true, Bool.or_eq_true, decide_eq_true_eq, beq_iff_eq]
    refine ⟨by norm_num, Or.inl (by norm_num)⟩
  rw [histTotal, histCounts, show List.range 2 = [0, 1] from rfl]
  simp only [List.map_cons, List.map_nil, List.sum_cons, List.sum_nil]
  omega

theorem np_histogram_density_replicate_six :
    ∃ l, np_histogram_density (List.replicate 6 (0 : ℝ)) 2 = Except.ok l := by
  unfold np_histogram_density
  rw [if_neg (by simp : ¬(List.replicate 6 (0 : ℝ) = [] ∨ 2 = 0))]
  rw [if_neg ?_]
  · exact ⟨_, rfl⟩
  · rintro (hw | htot)
    · rw [histWidth_replicate_six] at hw
      norm_num at hw
    · have := histTotal_replicate_six_pos
      omega

/-- C7: for `path_count = 3`, `horizon = 2`, zero drift, zero volatility,
initial price 100 and zero rate, and for EVERY noise matrix `Z`, the generated
path matrix is identically 100 (a `3 × 3` all-100 matrix), the resulting
`max_price` is 100, every cumulative log-return is 0, and the global
histogram computation `np.histogram` with `int(np.sqrt(6))` bins on the
degenerate all-zero sample completes without a division error (numpy widens
the degenerate range to `[-0.5, 0.5]`, so the density denominators are
nonzero). -/
theorem degenerate_scenario (Z : Fin 2 → Fin 3 → ℝ) :
    (∀ (t : Fin 3) (p : Fin 3), generate_gbm 3 2 0 0 100 0 Z t p = 100) ∧
    matrixMax 3 3 (generate_gbm 3 2 0 0 100 0 Z) = 100 ∧
    (∀ (s : Fin 2) (p : Fin 3),
      log_returns 2 3 (generate_gbm 3 2 0 0 100 0 Z) 100 s p = 0) ∧
    (∃ l, np_histogram_density
        (matrixToList 2 3 (log_returns 2 3 (generate_gbm 3 2 0 0 100 0 Z) 100))
        (main_hist_bins 2 3) = Except.ok l) := by
  have h1 : ∀ (t : Fin 3) (p : Fin 3), generate_gbm 3 2 0 0 100 0 Z t p = 100 := by
    intro t p
    refine Fin.cases ?_ ?_ t
    · simp [generate_gbm]
    · intro s
      simp [generate_gbm, daily_returns]
  have hconst : generate_gbm 3 2 0 0 100 0 Z = fun _ _ => (100 : ℝ) :=
    funext fun t => funext fun p => h1 t p
  have h3 : ∀ (s : Fin 2) (p : Fin 3),
      log_returns 2 3 (generate_gbm 3 2 0 0 100 0 Z) 100 s p = 0 := by
    intro s p
    rw [log_returns, hconst]
    norm_num
  refine ⟨h1, ?_, h3, ?_⟩
  · rw [hconst, matrixMax, Set.range_const, csSup_singleton]
  · have hlr : log_returns 2 3 (generate_gbm 3 2 0 0 100 0 Z) 100 =
        fun _ _ => (0 : ℝ) := funext fun s => funext fun p => h3 s p
    rw [hlr, matrixToList_const, show (2 : ℕ) * 3 = 6 from rfl,
      show main_hist_bins 2 3 = 2 by unfold main_hist_bins; norm_num]
    exact np_histogram_density_replicate_six
